import Mathlib

/-!
Verification of the pdfcoll indexing and retrieval engine against its
specification. The Python sources (meta.py, sqlite_fts.py, utils.py) are
shallowly embedded below: pure functions become Lean functions, database and
filesystem state becomes explicit state passing, Python exceptions become
an `Except PyErr` result, and Python truthiness is modelled explicitly.
-/

set_option autoImplicit false

namespace PdfColl

/-! ## Python-level error and value model -/

/-- The Python exception kinds raised by the embedded code paths. -/
inductive PyErr where
  | attributeError (typeName attr : String)
  | runtimeError (msg : String)
  | valueError (msg : String)
  | operationalError (msg : String)
  deriving DecidableEq, Repr

/-- Python values stored in a metadata record (meta.yml contents). -/
inductive PyV where
  | s (val : String)
  | i (val : Int)
  | b (val : Bool)
  | ls (val : List String)
  deriving DecidableEq, Repr

/-- Python truthiness for record values: empty string, zero, False and the
empty list are falsy. -/
def pyTruthy : PyV → Bool
  | .s t => t ≠ ""
  | .i n => n ≠ 0
  | .b v => v
  | .ls xs => xs ≠ []

/-- Python str() of a record value (list values never occur where this is
used in the embedded code paths). -/
def pyvToStr : PyV → String
  | .s t => t
  | .i n => toString n
  | .b true => "True"
  | .b false => "False"
  | .ls xs => String.intercalate ", " xs

/-! ## Ordered association lists

Python dicts (and OrderedDict) preserve insertion order; assigning to an
existing key updates the value in place, assigning to a new key appends.
Records, the record store and grouped search results all use this shape. -/

/-- Lookup in an insertion-ordered association list (dict access). -/
def alget {α : Type} : List (String × α) → String → Option α
  | [], _ => none
  | (k, v) :: rest, key => if k = key then some v else alget rest key

/-- Assignment in an insertion-ordered association list: update in place if
the key exists, append otherwise (Python dict assignment). -/
def alset {α : Type} : List (String × α) → String → α → List (String × α)
  | [], key, v => [(key, v)]
  | (k, w) :: rest, key, v =>
      if k = key then (k, v) :: rest else (k, w) :: alset rest key v

/-! ## Query normalization: FTS._prepare_query (sqlite_fts.py lines 189-212) -/

/-- Python regex \s on the ASCII range: space, tab, newline, carriage
return, vertical tab, form feed. -/
def isPySpace (c : Char) : Bool :=
  c = ' ' ∨ c = '\t' ∨ c = '\n' ∨ c = '\r' ∨ c = '\x0b' ∨ c = '\x0c'

/-- Substring containment over character lists (re.search of a literal). -/
def containsSub (needle : List Char) : List Char → Bool
  | [] => needle.isEmpty
  | c :: rest => needle.isPrefixOf (c :: rest) || containsSub needle rest

/-- re.search of the literal pattern with spaces, sp OR sp / sp AND sp,
deciding whether the query holds boolean keywords (line 195). -/
def have_booleans (q : List Char) : Bool :=
  containsSub (' ' :: 'O' :: 'R' :: [' ']) q ||
    containsSub (' ' :: 'A' :: 'N' :: 'D' :: [' ']) q

/-- Head-is-whitespace test used for the regexes demanding one or more
whitespace characters after a token. -/
def headIsSpace : List Char → Bool
  | [] => false
  | c :: _ => isPySpace c

/-- re.match of (OR|AND)\s+ at the start of the query together with the
re.sub removing the keyword and the whitespace run after it (lines 200,
203, 205). Returns whether the keyword was OR, and the remaining query. -/
def matchBool (q : List Char) : Option (Bool × List Char) :=
  if ('O' :: ['R']).isPrefixOf q ∧ headIsSpace (q.drop 2) then
    some (true, (q.drop 2).dropWhile isPySpace)
  else if ('A' :: 'N' :: ['D']).isPrefixOf q ∧ headIsSpace (q.drop 3) then
    some (false, (q.drop 3).dropWhile isPySpace)
  else none

/-- re.match of \s*(\S+)\s+ at the start of the query together with the
re.sub removing the matched stretch (lines 201, 207, 208). Returns the
captured word and the remaining query. -/
def matchWord (q : List Char) : Option (List Char × List Char) :=
  let q1 := q.dropWhile isPySpace
  let w := q1.takeWhile (fun c => ¬ isPySpace c)
  let r := q1.dropWhile (fun c => ¬ isPySpace c)
  if w ≠ [] ∧ headIsSpace r then some (w, r.dropWhile isPySpace) else none

/-- The while loop of _prepare_query (lines 199-211), with explicit fuel;
every iteration either removes at least one character from the query or
breaks, so fuel equal to the query length plus one is never exhausted.
The keyword OR is echoed with a trailing space, AND is dropped, an initial
word is lowercased and echoed with a trailing space, and when none of the
patterns match the rest of the query is appended unchanged and the loop
breaks. -/
def prepLoop : Nat → List Char → List Char
  | 0, _ => []
  | _ + 1, [] => []
  | fuel + 1, c :: rest =>
      match matchBool (c :: rest) with
      | some (isOr, q2) =>
          (if isOr then 'O' :: 'R' :: [' '] else []) ++ prepLoop fuel q2
      | none =>
          match matchWord (c :: rest) with
          | some (w, q2) => (w.map Char.toLower ++ [' ']) ++ prepLoop fuel q2
          | none => c :: rest

/-- FTS._prepare_query (sqlite_fts.py lines 189-212): a query without
boolean keywords is lowercased wholesale; otherwise the token loop above
rewrites it. -/
def prepare_query (query : String) : String :=
  if have_booleans query.toList then
    String.mk (prepLoop (query.length + 1) query.toList)
  else
    String.mk (query.toList.map Char.toLower)

/-! ## Identity expansion: Meta.expand_sha1 (meta.py lines 48-62)

The archive layout stores a document with identity id (a 40-character hex
string) in the directory basedir/id.take 2/id, so the glob pattern
basedir/short.take 2/short* matches exactly the stored identities that
extend the shortened string. The archive is modelled as the list of stored
identities. -/

/-- Meta.expand_sha1 (meta.py lines 48-62): the source guard is
4 < len(shortened_sha1) < 40; more than one glob match raises ValueError;
exactly one returns its basename, the full identity; none returns None. -/
def expand_sha1 (ids : List String) (shortened : String) :
    Except PyErr (Option String) :=
  if 4 < shortened.length ∧ shortened.length < 40 then
    match ids.filter (fun id => shortened.toList.isPrefixOf id.toList) with
    | [] => .ok none
    | [x] => .ok (some x)
    | _ :: _ :: _ =>
        .error (.valueError ("Shortened SHA " ++ shortened ++ " is ambiguous"))
  else .ok none

/-! ## FTS construction and the staleness check
(sqlite_fts.py lines 68-85 and 303-328) -/

/-- The attributes of an FTS instance relevant to index_bundle. The slot
for self.force_update is an Option: FTS.__init__ (lines 68-85) accepts a
force_update parameter but never assigns the attribute, so after
construction the slot is empty and reading it raises AttributeError. -/
structure FTSObj where
  basedir : String
  db_dir : String
  db : String
  reftime : Nat
  force_update : Option Bool
  deriving DecidableEq, Repr

/-- FTS.__init__ (sqlite_fts.py lines 68-85): reftime is 0 when the
database file is being created, otherwise the modification time of the
database file; the force_update parameter is accepted and dropped, leaving
the attribute slot unset. -/
def fts_init (basedir db_dir db : String) (_force_update : Bool)
    (dbExists : Bool) (dbMtime : Nat) : FTSObj :=
  { basedir := basedir
    db_dir := db_dir
    db := db
    reftime := if dbExists then dbMtime else 0
    force_update := none }

/-- Python attribute read self.force_update: AttributeError when the slot
was never assigned. -/
def getattr_force_update (o : FTSObj) : Except PyErr Bool :=
  match o.force_update with
  | some v => .ok v
  | none => .error (.attributeError "FTS" "force_update")

/-- Outcome of the staleness check at the head of FTS.index_bundle. -/
inductive IndexAction where
  | skipped
  | reindexed
  deriving DecidableEq, Repr

/-- The staleness check of FTS.index_bundle (sqlite_fts.py lines 307-310):
the Python condition is
reftime > mod_dir and reftime > mod_meta and not self.force_update,
evaluated left to right with short-circuiting, so the attribute read of
self.force_update happens exactly when the two timestamp comparisons hold. -/
def index_bundle_check (o : FTSObj) (mod_dir mod_meta : Nat) :
    Except PyErr IndexAction :=
  if o.reftime > mod_dir then
    if o.reftime > mod_meta then
      match getattr_force_update o with
      | .error e => .error e
      | .ok fu => if ¬ fu then .ok .skipped else .ok .reindexed
    else .ok .reindexed
  else .ok .reindexed

/-! ## The SQLite index state (schema of _create_schema, lines 87-118) -/

/-- One row of the meta table. The schema columns are meta_id,
folder_sha1, author, title, subtitle, year, pages, summary, isbn, doi, ts;
the bound values for the eight bibliographic fields arrive as strings (or
NULL) after list coalescing, so they are modelled as Option String. -/
structure MetaRow where
  meta_id : Nat
  folder_sha1 : String
  author : Option String
  title : Option String
  subtitle : Option String
  year : Option String
  pages : Option String
  summary : Option String
  isbn : Option String
  doi : Option String
  ts : Nat
  deriving DecidableEq, Repr

/-- One row of the page table (page_id, folder_sha1, file_name). -/
structure PageRow where
  page_id : Nat
  folder_sha1 : String
  file_name : String
  deriving DecidableEq, Repr

/-- One row of the fts_page virtual table (rowid, file_contents). -/
structure FtsRow where
  rowid : Nat
  file_contents : String
  deriving DecidableEq, Repr

/-- The three tables of the index database. -/
structure DbState where
  meta : List MetaRow
  page : List PageRow
  fts_page : List FtsRow
  deriving DecidableEq, Repr

/-- A Python value in the position of the dbh parameter of do_sql: the
correct calls pass the sqlite connection, the buggy call at line 284 of
sqlite_fts.py passes the SQL string there. -/
inductive PyVal where
  | dbHandle
  | str (s : String)
  | list (xs : List String)
  deriving DecidableEq, Repr

/-- dbh.cursor(): only a database handle has a cursor method; on any other
value Python raises AttributeError. -/
def py_cursor : PyVal → Except PyErr Unit
  | .dbHandle => .ok ()
  | .str _ => .error (.attributeError "str" "cursor")
  | .list _ => .error (.attributeError "list" "cursor")

/-- The delete statements issued through do_sql by delete_page and
expunge, identified with their bound values. -/
inductive SqlStmt where
  | deletePageById (pid : Nat)
  | deleteFtsByRowid (pid : Nat)
  | deleteMetaByFolder (sha1 : String)
  deriving DecidableEq, Repr

/-- Execution of the statements above against the database state, with the
sqlite rowcount (number of affected rows). -/
def execStmt : SqlStmt → DbState → DbState × Nat
  | .deletePageById pid, st =>
      ({ st with page := st.page.filter (fun r => r.page_id ≠ pid) },
        (st.page.filter (fun r => r.page_id = pid)).length)
  | .deleteFtsByRowid pid, st =>
      ({ st with fts_page := st.fts_page.filter (fun r => r.rowid ≠ pid) },
        (st.fts_page.filter (fun r => r.rowid = pid)).length)
  | .deleteMetaByFolder sha1, st =>
      ({ st with meta := st.meta.filter (fun r => r.folder_sha1 ≠ sha1) },
        (st.meta.filter (fun r => r.folder_sha1 = sha1)).length)

/-- do_sql (sqlite_fts.py lines 41-60): the first action is dbh.cursor(),
so when a non-handle stands in the dbh position the call raises
AttributeError before any SQL executes; otherwise the statement runs and
the rowcount is returned. -/
def do_sql (dbh : PyVal) (stmt : SqlStmt) (st : DbState) :
    Except PyErr (DbState × Nat) :=
  match py_cursor dbh with
  | .error e => .error e
  | .ok _ => .ok (execStmt stmt st)

/-- Python truthiness of an optional integer argument (None and 0 falsy). -/
def pyTruthyOptNat : Option Nat → Bool
  | none => false
  | some n => n ≠ 0

/-- Python truthiness of an optional string argument (None and the empty
string falsy). -/
def pyTruthyOptStr : Option String → Bool
  | none => false
  | some s => s ≠ ""

/-! ## FTS.delete_page (sqlite_fts.py lines 361-379) -/

/-- FTS.delete_page. The guard on line 365 is
if not page_id or file_name, which parses as (not page_id) or file_name
and raises whenever page_id is falsy or file_name is supplied; the
file_name-to-page_id lookup on lines 368-376 is unreachable after this
guard but embedded as written. The two deletes then run through do_sql
with the real handle, and the page-delete rowcount is returned. -/
def delete_page (st : DbState) (page_id : Option Nat)
    (file_name : Option String) : Except PyErr (DbState × Nat) :=
  if ¬ pyTruthyOptNat page_id ∨ pyTruthyOptStr file_name then
    .error (.runtimeError "Need either page_id or file_name")
  else
    let pidE : Except PyErr Nat :=
      if ¬ pyTruthyOptNat page_id then
        match st.page.filter (fun r => file_name = some r.file_name) with
        | r :: _ => .ok r.page_id
        | [] => .error (.runtimeError "Could not find page_id based on file_name")
      else .ok (page_id.getD 0)
    match pidE with
    | .error e => .error e
    | .ok pid =>
        match do_sql .dbHandle (.deletePageById pid) st with
        | .error e => .error e
        | .ok (st1, ret) =>
            match do_sql .dbHandle (.deleteFtsByRowid pid) st1 with
            | .error e => .error e
            | .ok (st2, _) => .ok (st2, if ret ≠ 0 then ret else 0)

/-! ## FTS.index_meta (sqlite_fts.py lines 233-268) -/

/-- The column names of the meta table, from _create_schema (lines 88-102). -/
def metaColumns : List String :=
  ["meta_id", "folder_sha1", "author", "title", "subtitle", "year",
   "pages", "summary", "isbn", "doi", "ts"]

/-- The eight bibliographic fields read from the metadata record
(lines 240-241). -/
def core_fields : List String :=
  ["author", "title", "subtitle", "year", "pages", "summary", "isbn", "doi"]

/-- A select from meta with a where-clause on one column: sqlite rejects a
column name absent from the schema with OperationalError when preparing
the statement, before any row is read. -/
def select_meta_where (col : String) (key : MetaRow → Bool)
    (rows : List MetaRow) : Except PyErr (List MetaRow) :=
  if metaColumns.contains col then .ok (rows.filter key)
  else .error (.operationalError ("no such column: " ++ col))

/-- An insert into meta naming explicit columns: sqlite rejects unknown
column names when preparing the statement; on success the row is appended. -/
def insert_meta (cols : List String) (row : MetaRow) (rows : List MetaRow) :
    Except PyErr (List MetaRow) :=
  match cols.find? (fun c => ¬ metaColumns.contains c) with
  | some c =>
      .error (.operationalError ("table meta has no column named " ++ c))
  | none => .ok (rows ++ [row])

/-- Field extraction of index_meta (lines 246-252): a list value is
coalesced into one string delimited by sp ; sp, a scalar passes through,
an absent field binds NULL. -/
def metaFieldBind (mi : List (String × PyV)) (f : String) : Option String :=
  match alget mi f with
  | some (.ls xs) => some (String.intercalate " ; " xs)
  | some v => some (pyvToStr v)
  | none => none

/-- The insert branch of index_meta (lines 254-260): the column list
misspells the identity column as filder_sha1, so even this statement would
be rejected by sqlite (it also binds nine values to ten placeholders). -/
def index_meta_insert (st : DbState) (binds : List (Option String))
    (sha1 : String) (mod_meta : Nat) : Except PyErr DbState :=
  match insert_meta ("filder_sha1" :: core_fields ++ ["ts"])
      { meta_id := st.meta.length + 1
        folder_sha1 := sha1
        author := (binds.getD 0 none), title := (binds.getD 1 none)
        subtitle := (binds.getD 2 none), year := (binds.getD 3 none)
        pages := (binds.getD 4 none), summary := (binds.getD 5 none)
        isbn := (binds.getD 6 none), doi := (binds.getD 7 none)
        ts := mod_meta } st.meta with
  | .error e => .error e
  | .ok meta2 => .ok { st with meta := meta2 }

/-- FTS.index_meta. The first statement is
selectall(dbh, select * from meta where folder = ?, [sha1]) at line 242,
but the schema names that column folder_sha1, so sqlite raises
OperationalError there and the upsert below is never reached. The
remainder (insert if no row, update if the stored ts is older than the
metadata modification time or force_update is set) is embedded as
written. -/
def index_meta (st : DbState) (mi : List (String × PyV)) (sha1 : String)
    (mod_meta : Nat) (force_update : Bool) : Except PyErr DbState :=
  match select_meta_where "folder" (fun r => r.folder_sha1 = sha1) st.meta with
  | .error e => .error e
  | .ok found =>
      let binds := core_fields.map (metaFieldBind mi)
      match found.head? with
      | none => index_meta_insert st binds sha1 mod_meta
      | some row =>
          if row.meta_id = 0 then
            index_meta_insert st binds sha1 mod_meta
          else if row.ts < mod_meta ∨ force_update then
            .ok { st with meta := st.meta.map (fun r =>
              if r.meta_id = row.meta_id ∧ r.folder_sha1 = sha1 then
                { r with
                  author := (binds.getD 0 none), title := (binds.getD 1 none)
                  subtitle := (binds.getD 2 none), year := (binds.getD 3 none)
                  pages := (binds.getD 4 none), summary := (binds.getD 5 none)
                  isbn := (binds.getD 6 none), doi := (binds.getD 7 none)
                  ts := mod_meta }
              else r) }
          else .ok st

/-! ## FTS.expunge (sqlite_fts.py lines 270-284) -/

/-- One iteration of the page-deletion loop of expunge (lines 282-283):
once an exception is pending the remaining iterations never run; while no
exception is pending each page row is deleted through delete_page. -/
def expungeStep (acc : DbState × Option PyErr) (r : PageRow) :
    DbState × Option PyErr :=
  match acc with
  | (s, none) =>
      match delete_page s (some r.page_id) none with
      | .ok (s2, _) => (s2, none)
      | .error e => (s, some e)
  | (s, some e) => (s, some e)

/-- The final statement of expunge (line 284): the source calls
do_sql("delete from meta where folder_sha1 = ?", [sha1]), so the SQL
string stands in the dbh position of do_sql. When no exception is pending
this call runs (and raises at dbh.cursor()); a pending exception
propagates unchanged. -/
def expungeFinish (sha1 : String) (acc : DbState × Option PyErr) :
    DbState × Option PyErr :=
  match acc with
  | (st1, some e) => (st1, some e)
  | (st1, none) =>
      match do_sql (.str "delete from meta where folder_sha1 = ?")
          (.deleteMetaByFolder sha1) st1 with
      | .ok (s2, _) => (s2, none)
      | .error e => (st1, some e)

/-- FTS.expunge (sqlite_fts.py lines 270-284), with the raised exception
carried next to the database state so that deletions committed before the
raise stay visible. The entry guard on line 275 is
if not sha1 and len(sha1) == 40 (string truthiness: not sha1 holds exactly
when sha1 is empty); when it is not taken, the page rows of the identity
are deleted pairwise through delete_page unless meta_only, and then the
mis-called final statement runs. -/
def expungeRun (st : DbState) (sha1 : String) (meta_only : Bool) :
    DbState × Option PyErr :=
  if sha1 = "" ∧ sha1.length = 40 then (st, none)
  else
    let found := st.page.filter (fun r => r.folder_sha1 = sha1)
    expungeFinish sha1
      (if ¬ meta_only then found.foldl expungeStep (st, none) else (st, none))

/-! ## The metadata record store (meta.py)

A record is the parsed contents of one meta.yml file: an insertion-ordered
mapping from field name to value. The store maps each identity to its
record; the YAML serialization layer is the identity on this level (the
byte-level persistence of one write is analyzed separately with
atomic_write below). -/

/-- A metadata record. -/
abbrev Record := List (String × PyV)

/-- The per-identity record store. -/
abbrev Store := List (String × Record)

/-- Meta.read_meta (meta.py lines 64-71): reads and parses the record of
an identity; meta_path with must_exist raises ValueError when the file is
absent (lines 84-85). -/
def read_meta (store : Store) (sha1 : String) : Except PyErr Record :=
  match alget store sha1 with
  | some info => .ok info
  | none => .error (.valueError ("File not found: " ++ sha1))

/-- Meta.write_meta (meta.py lines 131-143) at the record level: the
destination path is resolved with must_exist (line 137), so the record
file must already exist, and the serialized record replaces the stored
one. -/
def write_meta (store : Store) (sha1 : String) (info : Record) :
    Except PyErr (Store × Record) :=
  match alget store sha1 with
  | some _ => .ok (alset store sha1 info, info)
  | none => .error (.valueError ("File not found: " ++ sha1))

/-- Meta.edit_meta (meta.py lines 119-129): reads the current record,
assigns each key of changes in iteration order, and writes the merged
record. -/
def edit_meta (store : Store) (sha1 : String) (changes : List (String × PyV)) :
    Except PyErr (Store × Record) :=
  match read_meta store sha1 with
  | .error e => .error e
  | .ok info =>
      write_meta store sha1
        (changes.foldl (fun acc kv => alset acc kv.1 kv.2) info)

/-- Meta.set_slug (meta.py lines 116-117). -/
def set_slug (store : Store) (sha1 : String) (slug : String) :
    Except PyErr (Store × Record) :=
  edit_meta store sha1 [("slug", .s slug)]

/-! ## Slug computation (utils.slugify and Meta.get_slug) -/

/-- Python regex word characters without the unicode flag:
[a-zA-Z0-9_]. -/
def isWordChar (c : Char) : Bool := c.isAlphanum ∨ c = '_'

/-- The maximal runs of word characters of a string, which is what
re.split on one-or-more non-word characters yields once empty pieces are
dropped. -/
def wordRunsAux (cur : List Char) : List Char → List (List Char)
  | [] => if cur = [] then [] else [cur.reverse]
  | c :: rest =>
      if isWordChar c then wordRunsAux (c :: cur) rest
      else (if cur = [] then [] else [cur.reverse]) ++ wordRunsAux [] rest

def wordRuns (l : List Char) : List (List Char) := wordRunsAux [] l

/-- slugify (utils.py lines 14-27) on plain ASCII input, where entity
unescaping and the translit/long encoding are the identity: lowercase,
split into word-character runs, join with the default hyphen (falling back
to the given fallback when no runs remain), truncate to the default
max_len of 40. get_slug calls this with fallback set to the empty
string. -/
def slugify (s : String) (fallback : String) : String :=
  let cleaned := s.toList.map Char.toLower
  let words := wordRuns cleaned
  let ret := if words = [] then fallback
    else String.intercalate "-" (words.map (fun w => String.mk w))
  String.mk (ret.toList.take 40)

/-- Word-boundary test for the four-digit year search: a boundary holds at
the ends of the string and next to non-word characters. -/
def boundaryOk : Option Char → Bool
  | none => true
  | some c => ¬ isWordChar c

/-- re.search of a word-bounded four-digit group (meta.py line 104): the
leftmost position where four digit characters appear with no word
character immediately before or after. -/
def findYearAux (prev : Option Char) : List Char → Option String
  | d1 :: d2 :: d3 :: d4 :: rest =>
      if d1.isDigit ∧ d2.isDigit ∧ d3.isDigit ∧ d4.isDigit ∧
          boundaryOk prev ∧ boundaryOk rest.head? then
        some (String.mk [d1, d2, d3, d4])
      else findYearAux (some d1) (d2 :: d3 :: d4 :: rest)
  | _ => none

def findYear (s : String) : Option String := findYearAux none s.toList

/-- The automatic slug assembly of Meta.get_slug (meta.py lines 101-111):
slugified author and title, the first word-bounded four-digit group of
str(year), the bibkey with each non-word character replaced by a hyphen
(skipped when bibkey is falsy or absent), and the first seven characters
of the identity, joined by underscores with falsy components dropped. -/
def computed_slug (info : Record) (sha1 : String) : String :=
  let author := slugify (pyvToStr ((alget info "author").getD (.s ""))) ""
  let title := slugify (pyvToStr ((alget info "title").getD (.s ""))) ""
  let year : Option String :=
    findYear (pyvToStr ((alget info "year").getD (.s "")))
  let bibkey : Option String :=
    match alget info "bibkey" with
    | some v =>
        if pyTruthy v then
          some (String.mk ((pyvToStr v).toList.map
            (fun c => if isWordChar c then c else '-')))
        else none
    | none => none
  let partial_sha := String.mk (sha1.toList.take 7)
  let parts : List (Option String) :=
    [some author, some title, year, bibkey, some partial_sha]
  String.intercalate "_" ((parts.filterMap id).filter (fun x => x ≠ ""))

/-- Truthiness of the stored slug field, read with a None default
(meta.py line 94). -/
def storedSlugTruthy (info : Record) : Bool :=
  match alget info "slug" with
  | some v => pyTruthy v
  | none => false

/-- The comparison on line 112: the stored slug read with an empty-string
default compared unequal against the computed slug (a stored non-string
value is unequal to any string). -/
def storedSlugDiffers (info : Record) (slug : String) : Bool :=
  match alget info "slug" with
  | some (.s t) => t ≠ slug
  | some _ => true
  | none => slug ≠ ""

/-- Meta.get_slug (meta.py lines 88-114). The reassignments of save and
ignore_saved on lines 95-98 are save2 and ignore2; when a truthy stored
slug exists and ignore2 is not set, the stored value is returned with the
store untouched (line 100); otherwise the slug is assembled from the
current fields and, when save2 holds and the computed slug is truthy and
differs from the stored one, persisted through set_slug (lines 112-113)
before being returned. -/
def get_slug (store : Store) (sha1 : String)
    (save overwrite ignore_saved : Bool) : Except PyErr (Store × String) :=
  match read_meta store sha1 with
  | .error e => .error e
  | .ok info =>
      let hasSlug := storedSlugTruthy info
      let save2 := if hasSlug ∧ save then overwrite else save
      let ignore2 := if hasSlug ∧ save2 then false else ignore_saved
      if hasSlug ∧ ¬ ignore2 then
        .ok (store, pyvToStr ((alget info "slug").getD (.s "")))
      else
        let slug := computed_slug info sha1
        if save2 ∧ slug ≠ "" ∧ storedSlugDiffers info slug then
          match set_slug store sha1 slug with
          | .error e => .error e
          | .ok (store2, _) => .ok (store2, slug)
        else .ok (store, slug)

/-! ## Result merging and grouping: FTS.search (sqlite_fts.py 120-187) -/

/-- One typed result row of search: the type discriminator (meta or fts),
the document identity, and the remaining selected columns abstracted into
one payload string. -/
structure SRow where
  rtype : String
  folder_sha1 : String
  payload : String
  deriving DecidableEq, Repr

/-- Either form of the search result (group_by_sha1 true or false). -/
inductive SearchResult where
  | grouped (groups : List (String × List SRow))
  | flat (rows : List SRow)
  deriving DecidableEq, Repr

/-- One iteration of the grouping loop (sqlite_fts.py lines 180-184): an
identity already present has the row appended to its list, a new identity
is appended at the end of the ordered dict with a singleton list. -/
def groupStep (acc : List (String × List SRow)) (row : SRow) :
    List (String × List SRow) :=
  match alget acc row.folder_sha1 with
  | some l => alset acc row.folder_sha1 (l ++ [row])
  | none => alset acc row.folder_sha1 [row]

/-- The result-merging tail of FTS.search (sqlite_fts.py lines 138-187):
meta_res is computed first (lines 139-160, when search_meta is set), the
text-match rows res second (line 177); with group_by_sha1 the
concatenation meta_res + res is folded row by row into an ordered dict
keyed by folder_sha1 (lines 178-185), otherwise the concatenation itself
is returned (line 187). -/
def search_merge (meta_res res : List SRow) (group_by_sha1 : Bool) :
    SearchResult :=
  if group_by_sha1 then .grouped ((meta_res ++ res).foldl groupStep [])
  else .flat (meta_res ++ res)

/-! ## Atomic file replacement: utils.atomic_write (utils.py 54-126)
as used by Meta.write_meta (meta.py 131-143) -/

/-- Content, owner, group and permission bits of one file. -/
structure FileInfo where
  content : String
  uid : Nat
  gid : Nat
  mode : Nat
  deriving DecidableEq, Repr

/-- A path split into directory and basename: tempfile.mkstemp is called
with dir set to os.path.dirname of the destination, so the temporary file
lives in the same directory as the destination. -/
structure FPath where
  dir : String
  base : String
  deriving DecidableEq, Repr

/-- The filesystem: a partial map from paths to files. -/
def FSys : Type := FPath → Option FileInfo

def fsSet (fs : FSys) (p : FPath) (v : Option FileInfo) : FSys :=
  fun q => if q = p then v else fs q

/-- One flushed chunk appended to the file at p. -/
def fsAppend (fs : FSys) (p : FPath) (chunk : String) : FSys :=
  fun q =>
    if q = p then (fs p).map (fun fi => { fi with content := fi.content ++ chunk })
    else fs q

/-- The filesystem states after each successive chunk write. -/
def chunkStates (fs : FSys) (p : FPath) : List String → List FSys
  | [] => []
  | c :: cs => fsAppend fs p c :: chunkStates (fsAppend fs p c) p cs

/-- The filesystem after all chunk writes. -/
def chunkFold (fs : FSys) (p : FPath) : List String → FSys
  | [] => fs
  | c :: cs => chunkFold (fsAppend fs p c) p cs

/-- os.replace(tmp, filename) (utils.py line 116): the destination path
receives the file at tmp with its attributes, tmp disappears; one atomic
transition. -/
def fsReplace (fs : FSys) (tmp dest : FPath) : FSys :=
  fsSet (fsSet fs dest (fs tmp)) tmp none

/-- os.chown (utils.py line 118). -/
def fsChown (fs : FSys) (p : FPath) (uid gid : Nat) : FSys :=
  fun q =>
    if q = p then (fs p).map (fun fi => { fi with uid := uid, gid := gid })
    else fs q

/-- os.chmod (utils.py line 119). -/
def fsChmod (fs : FSys) (p : FPath) (mode : Nat) : FSys :=
  fun q =>
    if q = p then (fs p).map (fun fi => { fi with mode := mode })
    else fs q

/-- The concatenation of the flushed chunks: the full serialized record. -/
def strConcat : List String → String
  | [] => ""
  | c :: cs => c ++ strConcat cs

/-- atomic_write (utils.py lines 54-126) as called by Meta.write_meta:
text mode, keep, owner, group and perms all None, so uid, gid and mode
come from os.stat of the existing destination (lines 95-103). The stages,
each a named definition so the trace below can list them:
aw_tmp is the temp path mkstemp picks inside the directory of the
destination (line 105); aw_fs0 is the filesystem right after mkstemp
creates the empty temp file with mode 600 owned by the running process;
aw_fsW is the filesystem after the with-body has written every chunk of
the serialized record to the temp file; aw_fsR applies os.replace of the
temp file over the destination (line 116); aw_fsC applies the chown to the
original owner and group (line 118); aw_final applies the chmod to the
original mode (line 119). -/
def aw_tmp (dest : FPath) (tmpBase : String) : FPath := ⟨dest.dir, tmpBase⟩

def aw_fs0 (fs : FSys) (dest : FPath) (tmpBase : String)
    (procUid procGid : Nat) : FSys :=
  fsSet fs (aw_tmp dest tmpBase) (some ⟨"", procUid, procGid, 0o600⟩)

def aw_fsW (fs : FSys) (dest : FPath) (tmpBase : String)
    (procUid procGid : Nat) (chunks : List String) : FSys :=
  chunkFold (aw_fs0 fs dest tmpBase procUid procGid) (aw_tmp dest tmpBase)
    chunks

def aw_fsR (fs : FSys) (dest : FPath) (tmpBase : String)
    (procUid procGid : Nat) (chunks : List String) : FSys :=
  fsReplace (aw_fsW fs dest tmpBase procUid procGid chunks)
    (aw_tmp dest tmpBase) dest

def aw_fsC (fs : FSys) (dest : FPath) (tmpBase : String)
    (procUid procGid : Nat) (chunks : List String) (orig : FileInfo) : FSys :=
  fsChown (aw_fsR fs dest tmpBase procUid procGid chunks) dest orig.uid
    orig.gid

/-- The filesystem after atomic_write completes. -/
def atomic_write_final (fs : FSys) (dest : FPath) (tmpBase : String)
    (procUid procGid : Nat) (chunks : List String) (orig : FileInfo) : FSys :=
  fsChmod (aw_fsC fs dest tmpBase procUid procGid chunks orig) dest orig.mode

/-- Every filesystem state from temp creation onward: after mkstemp, after
each flushed chunk, after the rename, after the chown, after the chmod.
An interrupted run of atomic_write leaves the filesystem in the initial
state or in one of these. -/
def atomic_write_states (fs : FSys) (dest : FPath) (tmpBase : String)
    (procUid procGid : Nat) (chunks : List String) (orig : FileInfo) :
    List FSys :=
  aw_fs0 fs dest tmpBase procUid procGid ::
    chunkStates (aw_fs0 fs dest tmpBase procUid procGid)
      (aw_tmp dest tmpBase) chunks ++
    [aw_fsR fs dest tmpBase procUid procGid chunks,
     aw_fsC fs dest tmpBase procUid procGid chunks orig,
     atomic_write_final fs dest tmpBase procUid procGid chunks orig]

/-- Meta.write_meta (meta.py lines 131-143) at the filesystem level: the
record is serialized (yaml.dump, line 138) into info_str and written
through atomic_write (line 141); the chunk list is the granularity in
which that single logical write may land on disk before an
interruption. -/
def write_meta_states (fs : FSys) (dest : FPath) (tmpBase : String)
    (procUid procGid : Nat) (chunks : List String) (orig : FileInfo) :
    List FSys :=
  atomic_write_states fs dest tmpBase procUid procGid chunks orig

/-! ## Concrete inputs used by the claim theorems and witnesses -/

/-- A database holding one indexed page (page row paired with its
inverted-text row) for concrete evaluation of delete_page. -/
def sampleDb : DbState :=
  { meta := []
    page := [{ page_id := 1
               folder_sha1 := "0123abcd0123abcd0123abcd0123abcd0123abcd"
               file_name := "f.page_0001.txt" }]
    fts_page := [{ rowid := 1, file_contents := "hello world" }] }

/-- A one-record store for the edit_meta witness. -/
def c7store : Store :=
  [("0123abcd0123abcd0123abcd0123abcd0123abcd",
    [("author", .s "Ada"), ("title", .s "Essay")])]

/-- A structured-field match row and two text match rows sharing one
identity, for the concrete grouping case of the claim. -/
def mrow : SRow := { rtype := "meta", folder_sha1 := "d1", payload := "m" }

def frow1 : SRow := { rtype := "fts", folder_sha1 := "d1", payload := "p1" }

def frow2 : SRow := { rtype := "fts", folder_sha1 := "d1", payload := "p2" }

/-- A store whose single record already carries a slug that differs from
the slug its fields would generate. -/
def slugSha : String := "aaaabbbbccccddddeeeeffff0000111122223333"

def slugInfo : Record :=
  [("slug", .s "zzz"), ("author", .s "Ada"), ("title", .s "Essay")]

def slugStore : Store := [(slugSha, slugInfo)]

/-- Concrete inputs for the write_meta witness: a destination record file
with owner 1000, group 1000 and mode 644 in the shard directory, a fresh
temp basename, and the serialized record landing in two flushed chunks. -/
def c1dest : FPath := ⟨"base/01", "meta.yml"⟩

def c1orig : FileInfo := ⟨"old: 1\n", 1000, 1000, 0o644⟩

def c1fs : FSys := fun p => if p = c1dest then some c1orig else none

/-! ## Association list lemmas -/

theorem alget_alset_self {α : Type} (d : List (String × α)) (k : String) (v : α) :
    alget (alset d k v) k = some v := by
  induction d with
  | nil => simp [alget, alset]
  | cons p rest ih =>
      by_cases h : p.1 = k
      · simp [alset, alget, h]
      · simp [alset, alget, h, ih]

theorem alget_alset_ne {α : Type} (d : List (String × α)) (k k' : String) (v : α)
    (h : k' ≠ k) : alget (alset d k v) k' = alget d k' := by
  induction d with
  | nil => simp [alget, alset, h.symm]
  | cons p rest ih =>
      obtain ⟨pk, pv⟩ := p
      by_cases hp : pk = k
      · subst hp
        simp [alget, alset, h.symm]
      · by_cases hk : pk = k'
        · simp [alget, alset, hp, hk, h]
        · simp [alget, alset, hp, hk, h, ih]

/-! ## Claim theorems (C2, C3, C6) -/

/-- C2: in the claim scenario, where the recorded reference time is newer
than both the directory modification time and the metadata modification
time, index_bundle does not return quietly at the staleness check: because
FTS.__init__ never assigns self.force_update, evaluating the third conjunct
of the check raises AttributeError. This contradicts the claimed
no-write early return. -/
theorem index_bundle_staleness_attribute_error
    (basedir db_dir db : String) (fu : Bool) (dbMtime mod_dir mod_meta : Nat)
    (h1 : mod_dir < dbMtime) (h2 : mod_meta < dbMtime) :
    index_bundle_check (fts_init basedir db_dir db fu true dbMtime)
        mod_dir mod_meta
      = .error (.attributeError "FTS" "force_update") := by
  simp [index_bundle_check, fts_init, getattr_force_update, h1, h2]

theorem index_bundle_staleness_attribute_error_witness :
    (0 : Nat) < 5 ∧ (0 : Nat) < 5 ∧
      index_bundle_check (fts_init "b" "d" "f" false true 5) 0 0
        = .error (.attributeError "FTS" "force_update") :=
  ⟨by decide, by decide,
    index_bundle_staleness_attribute_error "b" "d" "f" false 5 0 0
      (by decide) (by decide)⟩

/-- C3: concrete evaluation of FTS._prepare_query. A keyword-free query is
lowercased and the AND keyword is dropped, but the final token of a query
that does not end in whitespace is appended by the break branch of the
loop without lowercasing, so the claimed results "cats OR dogs" and
"cats dogs" are not produced: the code yields "cats OR Dogs" and
"cats Dogs". -/
theorem prepare_query_eval :
    prepare_query "cats" = "cats" ∧
    prepare_query "Cats OR Dogs" = "cats OR Dogs" ∧
    prepare_query "Cats AND Dogs" = "cats Dogs" ∧
    prepare_query "Cats OR Dogs" ≠ "cats OR dogs" ∧
    prepare_query "Cats AND Dogs" ≠ "cats dogs" := by
  refine ⟨?_, ?_, ?_, ?_, ?_⟩ <;> decide

/-- C6: evaluation of Meta.expand_sha1 at a unique prefix of length
exactly 4. The docstring of expand_sha1 states that the minimum length for
a shortened sha1 is 4 characters, and the claim says any unique prefix of
length at least 4 expands, but the source guard 4 < len excludes length 4,
so the unique 4-character prefix below yields None instead of the stored
identity. -/
theorem expand_sha1_len4_eval :
    expand_sha1 ["0123abcd0123abcd0123abcd0123abcd0123abcd"] "0123"
        = .ok none ∧
    ("0123".toList.isPrefixOf
      "0123abcd0123abcd0123abcd0123abcd0123abcd".toList) = true ∧
    "0123".length = 4 ∧
    ("0123abcd0123abcd0123abcd0123abcd0123abcd" : String).length = 40 :=
  ⟨rfl, by decide, by decide, by decide⟩

/-! ## Claim theorems (C4, C5, C10) -/

/-- C4: evaluation of FTS.delete_page. Supplying only file_name, although
the named page row exists, raises the line-365 RuntimeError (the guard
not page_id or file_name parses as (not page_id) or file_name), so the
claimed file_name deletion path never runs; supplying only a page_id that
matches no row returns rowcount 0 instead of the claimed NotFound error;
supplying only a valid page_id does delete the page row and its paired
text row. -/
theorem delete_page_eval :
    delete_page sampleDb none (some "f.page_0001.txt")
        = .error (.runtimeError "Need either page_id or file_name") ∧
    (sampleDb.page.filter (fun r => r.file_name = "f.page_0001.txt")).length
        = 1 ∧
    delete_page sampleDb (some 5) none = .ok (sampleDb, 0) ∧
    delete_page sampleDb (some 1) none
        = .ok ({ meta := [], page := [], fts_page := [] }, 1) :=
  ⟨rfl, by decide, rfl, rfl⟩

/-- C5: FTS.index_meta raises OperationalError on every call: its first
statement selects from meta with a where-clause on the nonexistent column
folder (the schema names it folder_sha1), so the claimed upsert is never
reached and the stored table is never modified. -/
theorem index_meta_always_errors (st : DbState) (mi : List (String × PyV))
    (sha1 : String) (mod_meta : Nat) (force_update : Bool) :
    index_meta st mi sha1 mod_meta force_update
      = .error (.operationalError "no such column: folder") := rfl

/-- Successful delete_page calls never touch the meta table. -/
theorem delete_page_meta_eq (st : DbState) (pid : Option Nat)
    (fn : Option String) (st2 : DbState) (n : Nat)
    (h : delete_page st pid fn = .ok (st2, n)) : st2.meta = st.meta := by
  unfold delete_page at h
  split at h
  · exact absurd h (by simp)
  · rename_i hg
    rw [not_or, not_not] at hg
    obtain ⟨hA, hB⟩ := hg
    simp only [hA, not_true_eq_false, Bool.false_eq_true, ite_false,
      do_sql, py_cursor, execStmt, Except.ok.injEq, Prod.mk.injEq] at h
    rw [← h.1]

/-- The page-deletion loop of expunge never touches the meta table. -/
theorem expungeStep_foldl_meta (l : List PageRow) (acc : DbState × Option PyErr) :
    (l.foldl expungeStep acc).1.meta = acc.1.meta := by
  induction l generalizing acc with
  | nil => rfl
  | cons r rest ih =>
      rw [List.foldl_cons, ih]
      obtain ⟨s, e⟩ := acc
      cases e with
      | some e => rfl
      | none =>
          simp only [expungeStep]
          rcases hd : delete_page s (some r.page_id) none with e2 | p
          · simp [hd]
          · obtain ⟨s2, k⟩ := p
            simp [hd, delete_page_meta_eq s _ _ s2 k hd]

/-- C10: the entry guard of FTS.expunge demands a simultaneously empty and
40-character identity, which no string satisfies, so it never causes an
early return; and on every input expunge terminates with a raised
exception while the meta table is untouched, because the final delete
calls do_sql with the SQL string where the database handle belongs and
dbh.cursor() raises AttributeError before the meta deletion can act. -/
theorem expunge_never_deletes_meta (st : DbState) (sha1 : String)
    (meta_only : Bool) :
    (¬ (sha1 = "" ∧ sha1.length = 40)) ∧
    (expungeRun st sha1 meta_only).2.isSome = true ∧
    (expungeRun st sha1 meta_only).1.meta = st.meta := by
  have hguard : ¬ (sha1 = "" ∧ sha1.length = 40) := by
    rintro ⟨h0, h40⟩
    subst h0
    exact absurd h40 (by decide)
  refine ⟨hguard, ?_, ?_⟩ <;>
    · unfold expungeRun
      rw [if_neg hguard]
      rcases hmo : meta_only with _ | _ <;>
        simp only [Bool.not_true, Bool.not_false, if_true, if_false,
          Bool.false_eq_true, not_false_eq_true, ite_true, ite_false] <;>
      first
      | (rcases hacc : (st.page.filter
            (fun r => r.folder_sha1 = sha1)).foldl expungeStep (st, none)
            with ⟨s1, e1⟩ <;>
         cases e1 <;>
         simp_all [expungeFinish, do_sql, py_cursor] <;>
         have := expungeStep_foldl_meta
            (st.page.filter (fun r => r.folder_sha1 = sha1)) (st, none) <;>
         simp_all)
      | simp [expungeFinish, do_sql, py_cursor]

/-! ## Claim theorems (C7, C8) -/

/-- Folding assignments over keys not containing k leaves the lookup of k
unchanged. -/
theorem alget_foldl_alset_not_mem (changes : List (String × PyV)) (k : String) :
    ∀ d : Record, k ∉ changes.map Prod.fst →
      alget (changes.foldl (fun acc kv => alset acc kv.1 kv.2) d) k
        = alget d k := by
  induction changes with
  | nil => intro d _; rfl
  | cons kv rest ih =>
      intro d h
      simp only [List.map_cons, List.mem_cons, not_or] at h
      rw [List.foldl_cons, ih _ h.2, alget_alset_ne _ _ _ _ h.1]

/-- Folding assignments with pairwise distinct keys makes the lookup of an
assigned key return its assigned value. -/
theorem alget_foldl_alset_mem (changes : List (String × PyV)) (k : String)
    (v : PyV) :
    ∀ d : Record, (changes.map Prod.fst).Nodup → (k, v) ∈ changes →
      alget (changes.foldl (fun acc kv => alset acc kv.1 kv.2) d) k
        = some v := by
  induction changes with
  | nil => intro d _ h; cases h
  | cons kv rest ih =>
      intro d hnd h
      rw [List.map_cons, List.nodup_cons] at hnd
      rw [List.foldl_cons]
      rcases List.mem_cons.mp h with heq | hrest
      · obtain rfl := heq.symm
        rw [alget_foldl_alset_not_mem rest _ _ (by simpa using hnd.1)]
        exact alget_alset_self d k v
      · exact ih _ hnd.2 hrest

/-- C7: Meta.edit_meta reads the current record, overwrites exactly the
keys named in changes with their new values, and persists the merged
record under the identity; every field not named in changes retains its
pre-edit value. -/
theorem edit_meta_merge (store : Store) (sha1 : String) (info : Record)
    (changes : List (String × PyV))
    (hs : alget store sha1 = some info)
    (hnd : (changes.map Prod.fst).Nodup) :
    ∃ merged : Record,
      edit_meta store sha1 changes = .ok (alset store sha1 merged, merged) ∧
      (∀ k v, (k, v) ∈ changes → alget merged k = some v) ∧
      (∀ k, k ∉ changes.map Prod.fst → alget merged k = alget info k) ∧
      alget (alset store sha1 merged) sha1 = some merged := by
  refine ⟨changes.foldl (fun acc kv => alset acc kv.1 kv.2) info,
    ?_, ?_, ?_, ?_⟩
  · simp [edit_meta, read_meta, write_meta, hs]
  · intro k v hkv
    exact alget_foldl_alset_mem changes k v info hnd hkv
  · intro k hk
    exact alget_foldl_alset_not_mem changes k info hk
  · exact alget_alset_self store sha1 _

theorem edit_meta_merge_witness :
    (alget c7store "0123abcd0123abcd0123abcd0123abcd0123abcd"
        = some [("author", .s "Ada"), ("title", .s "Essay")] ∧
      (([("title", PyV.s "Edited")].map Prod.fst).Nodup)) ∧
    (∃ merged : Record,
      edit_meta c7store "0123abcd0123abcd0123abcd0123abcd0123abcd"
          [("title", PyV.s "Edited")]
        = .ok (alset c7store "0123abcd0123abcd0123abcd0123abcd0123abcd"
            merged, merged) ∧
      (∀ k v, (k, v) ∈ [("title", PyV.s "Edited")] → alget merged k = some v) ∧
      (∀ k, k ∉ [("title", PyV.s "Edited")].map Prod.fst →
        alget merged k
          = alget [("author", PyV.s "Ada"), ("title", PyV.s "Essay")] k) ∧
      alget (alset c7store "0123abcd0123abcd0123abcd0123abcd0123abcd" merged)
          "0123abcd0123abcd0123abcd0123abcd0123abcd" = some merged) :=
  ⟨⟨by decide, by decide⟩,
    edit_meta_merge c7store "0123abcd0123abcd0123abcd0123abcd0123abcd"
      [("author", PyV.s "Ada"), ("title", PyV.s "Essay")]
      [("title", PyV.s "Edited")] (by decide) (by decide)⟩

/-- Lookup after the grouping fold: a key found in the accumulator keeps
its rows and gains the matching new rows in order; a fresh key maps to
exactly its matching rows, in order, or stays absent when none match. -/
theorem alget_groupFold (rows : List SRow) :
    ∀ (acc : List (String × List SRow)) (k : String),
      alget (rows.foldl groupStep acc) k =
        match alget acc k with
        | some l => some (l ++ rows.filter (fun r => r.folder_sha1 = k))
        | none =>
            if rows.filter (fun r => r.folder_sha1 = k) = [] then none
            else some (rows.filter (fun r => r.folder_sha1 = k)) := by
  induction rows with
  | nil =>
      intro acc k
      cases h : alget acc k <;> simp [h]
  | cons r rest ih =>
      intro acc k
      rw [List.foldl_cons, ih (groupStep acc r) k]
      by_cases hk : r.folder_sha1 = k
      · subst hk
        unfold groupStep
        cases hacc : alget acc r.folder_sha1 with
        | some l => simp [alget_alset_self, hacc, List.filter_cons]
        | none => simp [alget_alset_self, hacc, List.filter_cons]
      · have hne : k ≠ r.folder_sha1 := fun h => hk h.symm
        unfold groupStep
        cases hacc : alget acc r.folder_sha1 with
        | some l =>
            rw [alget_alset_ne _ _ _ _ hne]
            simp [List.filter_cons, hk]
        | none =>
            rw [alget_alset_ne _ _ _ _ hne]
            simp [List.filter_cons, hk]

/-- C8: search evaluates structured-field matches before text matches and
returns, without grouping, the flat concatenation with structured matches
first; with grouping, an ordered mapping in which each identity holds the
ordered list of its rows, structured ones before text ones; in particular
one structured hit and two text hits for the same identity group to a
three-element list headed by the structured hit. -/
theorem search_merge_spec (meta_res res : List SRow) (k : String) :
    search_merge meta_res res false = .flat (meta_res ++ res) ∧
    search_merge meta_res res true
        = .grouped ((meta_res ++ res).foldl groupStep []) ∧
    (alget ((meta_res ++ res).foldl groupStep []) k =
      if meta_res.filter (fun r => r.folder_sha1 = k) = [] ∧
          res.filter (fun r => r.folder_sha1 = k) = [] then none
      else some (meta_res.filter (fun r => r.folder_sha1 = k)
          ++ res.filter (fun r => r.folder_sha1 = k))) ∧
    search_merge [mrow] [frow1, frow2] true
        = .grouped [("d1", [mrow, frow1, frow2])] := by
  refine ⟨rfl, rfl, ?_, by decide⟩
  rw [alget_groupFold (meta_res ++ res) [] k]
  simp [alget, List.filter_append, List.append_eq_nil]

/-! ## Claim theorems (C9) -/

/-- C9 counterexample: the claim states that a stored non-empty slug is
returned as-is unless ignore_saved is set or both overwrite and save are
set; but with save and overwrite both set (and ignore_saved clear) the
code sets ignore_saved to False on line 98 and returns the stored slug on
line 100, even though the freshly computed slug differs, and the store is
not rewritten. -/
theorem get_slug_overwrite_counterexample :
    get_slug slugStore slugSha true true false = .ok (slugStore, "zzz") ∧
    computed_slug slugInfo slugSha ≠ "zzz" ∧
    computed_slug slugInfo slugSha = "ada_essay_aaaabbb" ∧
    storedSlugTruthy slugInfo = true :=
  ⟨rfl, by decide, by decide, rfl⟩

/-- When the stored slug field is falsy, any truthy computed slug differs
from it under the comparison on line 112. -/
theorem storedSlugDiffers_of_not_truthy (info : Record) (slug : String)
    (h : storedSlugTruthy info = false) (hs : slug ≠ "") :
    storedSlugDiffers info slug = true := by
  unfold storedSlugTruthy at h
  unfold storedSlugDiffers
  cases hv : alget info "slug" with
  | none => simpa using hs
  | some v =>
      rw [hv] at h
      cases v with
      | s t =>
          have ht : t = "" := by simpa [pyTruthy] using h
          subst ht
          simpa using Ne.symm hs
      | i n => rfl
      | b v => cases v <;> simp_all [pyTruthy]
      | ls xs => rfl

/-- C9 amended: calling get_slug twice with save set and the record fields
unchanged yields the same slug from both calls, and the second call does
not rewrite the store, because a stored non-empty slug is returned as-is
whenever ignore_saved is clear or save and overwrite are both set, a
recomputation happens only when ignore_saved is set and save and
overwrite are not both set, and a save only happens when the computed
slug is truthy and differs from the stored one. -/
theorem get_slug_stable (store : Store) (sha1 : String) (info : Record)
    (hs : alget store sha1 = some info) :
    (∃ st1 s1, get_slug store sha1 true false false = .ok (st1, s1) ∧
       get_slug st1 sha1 true false false = .ok (st1, s1)) ∧
    (∀ sv ov ig : Bool, storedSlugTruthy info = true →
       (ig = false ∨ (sv = true ∧ ov = true)) →
       get_slug store sha1 sv ov ig
         = .ok (store, pyvToStr ((alget info "slug").getD (.s "")))) ∧
    (∀ sv ov ig : Bool, storedSlugTruthy info = true → ig = true →
       ¬ (sv = true ∧ ov = true) →
       get_slug store sha1 sv ov ig = .ok (store, computed_slug info sha1)) := by
  have hread : read_meta store sha1 = .ok info := by simp [read_meta, hs]
  refine ⟨?_, ?_, ?_⟩
  · by_cases hslug : storedSlugTruthy info = true
    · exact ⟨store, pyvToStr ((alget info "slug").getD (.s "")),
        by simp [get_slug, hread, hslug], by simp [get_slug, hread, hslug]⟩
    · have hslugF : storedSlugTruthy info = false := by simpa using hslug
      by_cases hempty : computed_slug info sha1 = ""
      · exact ⟨store, computed_slug info sha1,
          by simp [get_slug, hread, hslugF, hempty],
          by simp [get_slug, hread, hslugF, hempty]⟩
      · have hdiff := storedSlugDiffers_of_not_truthy info
          (computed_slug info sha1) hslugF hempty
        have hset : set_slug store sha1 (computed_slug info sha1)
            = .ok (alset store sha1
                (alset info "slug" (.s (computed_slug info sha1))),
              alset info "slug" (.s (computed_slug info sha1))) := by
          simp [set_slug, edit_meta, read_meta, write_meta, hs]
        refine ⟨alset store sha1
            (alset info "slug" (.s (computed_slug info sha1))),
          computed_slug info sha1, ?_, ?_⟩
        · simp [get_slug, hread, hslugF, hempty, hdiff, hset]
        · have hs2 : alget (alset store sha1
              (alset info "slug" (.s (computed_slug info sha1)))) sha1
              = some (alset info "slug" (.s (computed_slug info sha1))) :=
            alget_alset_self store sha1 _
          have hread2 : read_meta (alset store sha1
              (alset info "slug" (.s (computed_slug info sha1)))) sha1
              = .ok (alset info "slug" (.s (computed_slug info sha1))) := by
            simp [read_meta, hs2]
          have hget : alget (alset info "slug"
              (.s (computed_slug info sha1))) "slug"
              = some (.s (computed_slug info sha1)) :=
            alget_alset_self info "slug" _
          have htr : storedSlugTruthy
              (alset info "slug" (.s (computed_slug info sha1))) = true := by
            simp [storedSlugTruthy, hget, pyTruthy, hempty]
          simp [get_slug, hread2, htr, hget, pyvToStr]
  · intro sv ov ig h1 h2
    rcases h2 with hig | ⟨hsv, hov⟩
    · subst hig
      cases sv <;> cases ov <;> simp [get_slug, hread, h1]
    · subst hsv; subst hov
      cases ig <;> simp [get_slug, hread, h1]
  · intro sv ov ig h1 hig hnot
    subst hig
    cases sv with
    | false => simp [get_slug, hread, h1]
    | true =>
        have hov : ov = false := by
          rcases Bool.eq_false_or_eq_true ov with h | h
          · exact absurd ⟨rfl, h⟩ hnot
          · exact h
        subst hov
        simp [get_slug, hread, h1]

theorem get_slug_stable_witness :
    alget slugStore slugSha = some slugInfo ∧
    ((∃ st1 s1, get_slug slugStore slugSha true false false = .ok (st1, s1) ∧
        get_slug st1 slugSha true false false = .ok (st1, s1)) ∧
      (∀ sv ov ig : Bool, storedSlugTruthy slugInfo = true →
        (ig = false ∨ (sv = true ∧ ov = true)) →
        get_slug slugStore slugSha sv ov ig
          = .ok (slugStore, pyvToStr ((alget slugInfo "slug").getD (.s "")))) ∧
      (∀ sv ov ig : Bool, storedSlugTruthy slugInfo = true → ig = true →
        ¬ (sv = true ∧ ov = true) →
        get_slug slugStore slugSha sv ov ig
          = .ok (slugStore, computed_slug slugInfo slugSha))) :=
  ⟨by decide, get_slug_stable slugStore slugSha slugInfo (by decide)⟩

/-! ## Claim theorems (C1) -/

theorem str_append_assoc (a b c : String) : a ++ b ++ c = a ++ (b ++ c) := by
  apply String.ext
  simp [String.data_append, List.append_assoc]

/-- Chunk writes to the temp path leave every other path unchanged. -/
theorem fsAppend_ne (fs : FSys) (p q : FPath) (c : String) (h : q ≠ p) :
    fsAppend fs p c q = fs q := by
  simp [fsAppend, h]

theorem chunkStates_ne (cs : List String) :
    ∀ (fs : FSys) (p q : FPath), q ≠ p →
      ∀ fs' ∈ chunkStates fs p cs, fs' q = fs q := by
  induction cs with
  | nil => intro fs p q h fs' hin; simp [chunkStates] at hin
  | cons c rest ih =>
      intro fs p q h fs' hin
      simp only [chunkStates, List.mem_cons] at hin
      rcases hin with rfl | hin
      · exact fsAppend_ne fs p q c h
      · rw [ih (fsAppend fs p c) p q h fs' hin]
        exact fsAppend_ne fs p q c h

theorem chunkFold_ne (cs : List String) :
    ∀ (fs : FSys) (p q : FPath), q ≠ p → chunkFold fs p cs q = fs q := by
  induction cs with
  | nil => intro fs p q h; rfl
  | cons c rest ih =>
      intro fs p q h
      exact (ih (fsAppend fs p c) p q h).trans (fsAppend_ne fs p q c h)

/-- After all chunk writes, the temp file holds its prior content followed
by the concatenation of the chunks. -/
theorem chunkFold_at (cs : List String) :
    ∀ (fs : FSys) (p : FPath),
      chunkFold fs p cs p
        = (fs p).map
            (fun fi => { fi with content := fi.content ++ strConcat cs }) := by
  induction cs with
  | nil =>
      intro fs p
      cases h : fs p with
      | none => simp [chunkFold, h]
      | some fi => simp [chunkFold, h, strConcat]
  | cons c rest ih =>
      intro fs p
      show chunkFold (fsAppend fs p c) p rest p = _
      rw [ih (fsAppend fs p c) p]
      cases h : fs p with
      | none => simp [fsAppend, h]
      | some fi => simp [fsAppend, h, strConcat, str_append_assoc]

/-- C1: Meta.write_meta persists the serialized record through
atomic_write: the temp file is created in the directory of the
destination, every state of the run shows the destination either as the
original file or as the complete new content (never a partial write), and
the final state carries the full serialized record with the original
owner, group and mode restored, the temp path gone. -/
theorem write_meta_atomic (fs : FSys) (dest : FPath) (tmpBase : String)
    (procUid procGid : Nat) (chunks : List String) (orig : FileInfo)
    (info_str : String)
    (hdest : fs dest = some orig)
    (htmp : fs ⟨dest.dir, tmpBase⟩ = none)
    (hne : tmpBase ≠ dest.base)
    (hj : strConcat chunks = info_str) :
    (∀ fs' ∈ write_meta_states fs dest tmpBase procUid procGid chunks orig,
        fs' dest = some orig ∨
          (fs' dest).map FileInfo.content = some info_str) ∧
    atomic_write_final fs dest tmpBase procUid procGid chunks orig dest
        = some ⟨info_str, orig.uid, orig.gid, orig.mode⟩ ∧
    atomic_write_final fs dest tmpBase procUid procGid chunks orig
        ⟨dest.dir, tmpBase⟩ = none := by
  have htmpne : aw_tmp dest tmpBase ≠ dest :=
    fun h => hne (congrArg FPath.base h)
  have hdne : dest ≠ aw_tmp dest tmpBase := Ne.symm htmpne
  have hfs0dest : aw_fs0 fs dest tmpBase procUid procGid dest = some orig := by
    simp [aw_fs0, fsSet, hdne, hdest]
  have hfs0tmp : aw_fs0 fs dest tmpBase procUid procGid (aw_tmp dest tmpBase)
      = some ⟨"", procUid, procGid, 0o600⟩ := by
    simp [aw_fs0, fsSet]
  have hW_tmp : aw_fsW fs dest tmpBase procUid procGid chunks
      (aw_tmp dest tmpBase)
      = some ⟨strConcat chunks, procUid, procGid, 0o600⟩ := by
    unfold aw_fsW
    rw [chunkFold_at chunks _ _, hfs0tmp]
    rfl
  have hR_dest : aw_fsR fs dest tmpBase procUid procGid chunks dest
      = some ⟨strConcat chunks, procUid, procGid, 0o600⟩ := by
    simp [aw_fsR, fsReplace, fsSet, hdne, hW_tmp]
  have hR_tmp : aw_fsR fs dest tmpBase procUid procGid chunks
      (aw_tmp dest tmpBase) = none := by
    simp [aw_fsR, fsReplace, fsSet]
  have hC_dest : aw_fsC fs dest tmpBase procUid procGid chunks orig dest
      = some ⟨strConcat chunks, orig.uid, orig.gid, 0o600⟩ := by
    simp [aw_fsC, fsChown, hR_dest]
  have hC_tmp : aw_fsC fs dest tmpBase procUid procGid chunks orig
      (aw_tmp dest tmpBase) = none := by
    simp [aw_fsC, fsChown, htmpne, hR_tmp]
  have hM_dest : atomic_write_final fs dest tmpBase procUid procGid chunks
      orig dest = some ⟨strConcat chunks, orig.uid, orig.gid, orig.mode⟩ := by
    simp [atomic_write_final, fsChmod, hC_dest]
  have hM_tmp : atomic_write_final fs dest tmpBase procUid procGid chunks
      orig (aw_tmp dest tmpBase) = none := by
    simp [atomic_write_final, fsChmod, htmpne, hC_tmp]
  refine ⟨?_, ?_, ?_⟩
  · intro fs' hin
    simp only [write_meta_states, atomic_write_states, List.mem_cons,
      List.mem_append, List.not_mem_nil, or_false] at hin
    rcases hin with (rfl | hin) | (rfl | rfl | rfl)
    · exact Or.inl hfs0dest
    · left
      rw [chunkStates_ne chunks _ _ _ hdne fs' hin]
      exact hfs0dest
    · right; rw [hR_dest]; simp [hj]
    · right; rw [hC_dest]; simp [hj]
    · right; rw [hM_dest]; simp [hj]
  · rw [hM_dest, hj]
  · exact hM_tmp

theorem write_meta_atomic_witness :
    (c1fs c1dest = some c1orig ∧
      c1fs ⟨c1dest.dir, "tmpx.bak"⟩ = none ∧
      "tmpx.bak" ≠ c1dest.base ∧
      strConcat ["author: Ada\n", "title: Essay\n"]
        = "author: Ada\ntitle: Essay\n") ∧
    ((∀ fs' ∈ write_meta_states c1fs c1dest "tmpx.bak" 1000 1000
          ["author: Ada\n", "title: Essay\n"] c1orig,
        fs' c1dest = some c1orig ∨
          (fs' c1dest).map FileInfo.content
            = some "author: Ada\ntitle: Essay\n") ∧
      atomic_write_final c1fs c1dest "tmpx.bak" 1000 1000
          ["author: Ada\n", "title: Essay\n"] c1orig c1dest
        = some ⟨"author: Ada\ntitle: Essay\n", c1orig.uid, c1orig.gid,
            c1orig.mode⟩ ∧
      atomic_write_final c1fs c1dest "tmpx.bak" 1000 1000
          ["author: Ada\n", "title: Essay\n"] c1orig
          ⟨c1dest.dir, "tmpx.bak"⟩ = none) :=
  ⟨⟨by decide, by decide, by decide, by decide⟩,
    write_meta_atomic c1fs c1dest "tmpx.bak" 1000 1000
      ["author: Ada\n", "title: Essay\n"] c1orig "author: Ada\ntitle: Essay\n"
      (by decide) (by decide) (by decide) (by decide)⟩

end PdfColl
